import Mathlib

/-!
Verification of the TikTok live-chat bridge (`src/tiktok.py`) and the
queue consumer in `src/main.py` of the falling-pickaxe repository.

The Python code is shallowly embedded: dictionaries become structures with
`Option` fields for keys that may be absent, Python lists become `List`,
the `_SeenCache` deque+set pair becomes a single `List String` (the set
`_index` is by construction always exactly the set of resident deque items,
so one list carries both), and Python truthiness of a string is `≠ ""`.
-/

namespace FallingPickaxe

/-- Case folding of the message, mirroring Python `str.lower()` applied
before keyword matching (`text_lower = message.lower()`). -/
def lowerText (s : String) : List Char :=
  s.toList.map Char.toLower

/-- Predicate `leadMatch n h` is true when `n` is an initial segment of `h`;
building block for Python's substring test `needle in haystack`. -/
def leadMatch : List Char → List Char → Bool
  | [], _ => true
  | _ :: _, [] => false
  | a :: as, b :: bs => a == b && leadMatch as bs

/-- Python's substring containment `needle in haystack` on char lists. -/
def containsText (needle : List Char) : List Char → Bool
  | [] => leadMatch needle []
  | b :: bs => leadMatch needle (b :: bs) || containsText needle bs

/-- Python's `key in text_lower` as used by `_handle_comment`. -/
def pyContains (needle : String) (hayLower : List Char) : Bool :=
  containsText needle.toList hayLower

/-- A payload dict placed on the TNT / MegaTNT queues.
Comment payloads (tiktok.py lines 143-166) carry no `priority`/`count`
keys; gift payloads (lines 233-272) add `priority="gift"` and a count. -/
structure TntEntry where
  author_id : String
  display_name : String
  message : String
  profile_image_url : Option String
  highlight : Option String
  priority : Option String
  count : Option Nat
deriving DecidableEq, Repr

/-- A Fast/Slow queue entry (tiktok.py lines 169, 172). -/
structure FsEntry where
  author_id : String
  display_name : String
  choice : String
deriving DecidableEq, Repr

/-- A Big queue entry (tiktok.py line 176). -/
structure BigEntry where
  author_id : String
  display_name : String
deriving DecidableEq, Repr

/-- A Pickaxe queue entry (tiktok.py lines 189-195). -/
structure PickEntry where
  author_id : String
  display_name : String
  pickaxe_type : String
deriving DecidableEq, Repr

/-- The five chat-command queues shared with the simulation loop. -/
structure Queues where
  tnt : List TntEntry
  megaTnt : List TntEntry
  fastSlow : List FsEntry
  big : List BigEntry
  pickaxe : List PickEntry
deriving DecidableEq, Repr

/-- The ordered keyword → pickaxe map of `_handle_comment`
(tiktok.py lines 179-186; Python dicts iterate in insertion order). -/
def pickaxeMap : List (String × String) :=
  [("wood", "wooden_pickaxe"), ("stone", "stone_pickaxe"),
   ("iron", "iron_pickaxe"), ("gold", "golden_pickaxe"),
   ("diamond", "diamond_pickaxe"), ("netherite", "netherite_pickaxe")]

/-- tiktok.py lines 160-162: unconditionally append a TNT payload whose
`highlight` is `"tnt"` iff the lowered text contains `"tnt"`. -/
def commentTntStep (q : Queues) (author_id display_name message : String)
    (avatar : Option String) (textLower : List Char) : Queues :=
  let highlight := if pyContains "tnt" textLower then some "tnt" else none
  { q with tnt := q.tnt ++
    [⟨author_id, display_name, message, avatar, highlight, none, none⟩] }

/-- tiktok.py lines 164-166: append a MegaTNT payload on `"megatnt"`. -/
def commentMegaStep (q : Queues) (author_id display_name message : String)
    (avatar : Option String) (textLower : List Char) : Queues :=
  if pyContains "megatnt" textLower then
    { q with megaTnt := q.megaTnt ++
      [⟨author_id, display_name, message, avatar, some "megatnt", none, none⟩] }
  else q

/-- tiktok.py lines 168-173: Fast wins over Slow, each behind the
per-author gate on the current Fast/Slow queue. -/
def commentFastSlowStep (q : Queues) (author_id display_name : String)
    (textLower : List Char) : Queues :=
  if pyContains "fast" textLower &&
      !(q.fastSlow.any (fun e => e.author_id == author_id)) then
    { q with fastSlow := q.fastSlow ++ [⟨author_id, display_name, "Fast"⟩] }
  else if pyContains "slow" textLower &&
      !(q.fastSlow.any (fun e => e.author_id == author_id)) then
    { q with fastSlow := q.fastSlow ++ [⟨author_id, display_name, "Slow"⟩] }
  else q

/-- tiktok.py lines 175-177: Big request behind the per-author gate. -/
def commentBigStep (q : Queues) (author_id display_name : String)
    (textLower : List Char) : Queues :=
  if pyContains "big" textLower &&
      !(q.big.any (fun e => e.author_id == author_id)) then
    { q with big := q.big ++ [⟨author_id, display_name⟩] }
  else q

/-- tiktok.py lines 179-197: first matching pickaxe keyword in dict order
appends one entry and breaks; the per-author gate is checked at each
iteration but the queue is unchanged until the break, so the first
keyword satisfying `key in text and author not queued` decides. -/
def commentPickStep (q : Queues) (author_id display_name : String)
    (textLower : List Char) : Queues :=
  match pickaxeMap.find? (fun kv => pyContains kv.1 textLower &&
      !(q.pickaxe.any (fun e => e.author_id == author_id))) with
  | some kv =>
      { q with pickaxe := q.pickaxe ++ [⟨author_id, display_name, kv.2⟩] }
  | none => q

/-- The classification part of `_handle_comment` (tiktok.py lines
160-197), run after the dedup gate: the five keyword sections in source
order, all matching on the lowered message text. -/
def handleComment (q : Queues) (author_id display_name message : String)
    (avatar : Option String) : Queues :=
  let textLower := lowerText message
  let q1 := commentTntStep q author_id display_name message avatar textLower
  let q2 := commentMegaStep q1 author_id display_name message avatar textLower
  let q3 := commentFastSlowStep q2 author_id display_name textLower
  let q4 := commentBigStep q3 author_id display_name textLower
  commentPickStep q4 author_id display_name textLower

/-- The coin-value / quantity branch of `_handle_gift`
(tiktok.py lines 241-265), returning `(tnt_to_enqueue, mega_to_enqueue)`. -/
def giftCounts (coinValue : Option Int) (quantity : Nat) : Nat × Nat :=
  match coinValue with
  | some cv =>
      if cv > 50 then (0, 10)
      else if cv > 1 then (5, 5)
      else (10, 0)
  | none => if quantity > 1 then (5, 5) else (10, 0)

/-- The queue-appending tail of `_handle_gift` (tiktok.py lines 232-273):
build the gift message and `priority="gift"` base payload, then append a
TNT payload and/or a MegaTNT payload when their counts are nonzero. -/
def handleGift (q : Queues) (author_id display_name : String)
    (avatar : Option String) (giftName : Option String)
    (coinValue : Option Int) (quantity : Nat) : Queues :=
  let message := "Gift: " ++ giftName.getD "TikTok gift"
  let counts := giftCounts coinValue quantity
  let q1 := if counts.1 ≠ 0 then
      { q with tnt := q.tnt ++ [⟨author_id, display_name, message, avatar,
        some "tnt", some "gift", some counts.1⟩] }
    else q
  if counts.2 ≠ 0 then
    { q1 with megaTnt := q1.megaTnt ++ [⟨author_id, display_name, message,
      avatar, some "megatnt", some "gift", some counts.2⟩] }
  else q1

/-- The raw like-count attribute of a like event, as seen by
`_handle_like` (tiktok.py line 290): absent (`getattr` gives `None`),
numeric, or a non-numeric value on which `int()` raises.  A falsy
non-numeric value (empty string) behaves exactly like `missing` in the
`or` chain, so one constructor covers the truthy non-numeric case. -/
inductive LikeRaw where
  | missing
  | num (n : Int)
  | nonNumeric
deriving DecidableEq, Repr

/-- Python truthiness of a raw like-count attribute (`0` is falsy). -/
def LikeRaw.truthy : LikeRaw → Bool
  | .missing => false
  | .num n => n ≠ 0
  | .nonNumeric => true

/-- Python's `raw_like_count = getattr(event,"likeCount",None) or
getattr(event,"like_count",None) or 1` followed by
`int(raw_like_count)` with `except: like_count = 1`
(tiktok.py lines 290-294). -/
def likeCountOf (likeCount like_count : LikeRaw) : Int :=
  let raw := if likeCount.truthy then likeCount
    else if like_count.truthy then like_count
    else .num 1
  match raw with
  | .num n => n
  | _ => 1

/-- The amount actually added to the author's accumulator:
`max(like_count, 1)` (tiktok.py line 296). -/
def likeAdded (likeCount like_count : LikeRaw) : Int :=
  max (likeCountOf likeCount like_count) 1

/-- The per-author accumulator update of `_handle_like`
(tiktok.py lines 296-298): add `max(like_count, 1)`, emit
`total // 5` bundles, keep `total % 5`.  Returns
`(new counter, bundles emitted)`.  `_like_counters` is a dict keyed by
author id whose entries are updated independently, so one author's
counter is modelled. -/
def likeStep (counter : Nat) (likeCount like_count : LikeRaw) : Nat × Nat :=
  let t := counter + (likeAdded likeCount like_count).toNat
  (t % 5, t / 5)

/-- The MegaTNT payload appended per bundle (tiktok.py lines 303-311). -/
def likePayload (author_id display_name : String)
    (avatar : Option String) : TntEntry :=
  ⟨author_id, display_name, "Likes x5", avatar, some "megatnt", none, none⟩

/-- Full `_handle_like` effect on one author's counter and the MegaTNT
queue: run `likeStep`, then append one payload per bundle. -/
def handleLike (counter : Nat) (megaQ : List TntEntry)
    (author_id display_name : String) (avatar : Option String)
    (likeCount like_count : LikeRaw) : Nat × List TntEntry :=
  let r := likeStep counter likeCount like_count
  (r.1, megaQ ++ List.replicate r.2 (likePayload author_id display_name avatar))

/-- Class `_SeenCache` (tiktok.py lines 19-40): a bounded insertion-ordered set.
The deque `_items` (head = oldest) is kept; the set `_index` always equals
the set of resident items, so membership is list membership. -/
structure SeenCache where
  maxlen : Nat
  items : List String
deriving DecidableEq, Repr

/-- Method `_SeenCache.add` (tiktok.py lines 27-40): return `False` untouched if
present; otherwise append, and if the deque overflows pop the oldest. -/
def SeenCache.add (c : SeenCache) (key : String) : Bool × SeenCache :=
  if key ∈ c.items then (false, c)
  else
    let items := c.items ++ [key]
    if items.length > c.maxlen then (true, ⟨c.maxlen, items.tail⟩)
    else (true, ⟨c.maxlen, items⟩)

/-- Fold a sequence of `add` calls, keeping only the final cache. -/
def SeenCache.addAll (c : SeenCache) (keys : List String) : SeenCache :=
  keys.foldl (fun c k => (c.add k).2) c

/-- Method `_next_backoff_delay` (tiktok.py lines 391-396) acting on the
`_backoff_attempts` counter: increment it, then return it together with
`min(5 * 2**(attempts-1), 60)`. -/
def nextBackoffDelay (attempts : Nat) : Nat × Nat :=
  let a := attempts + 1
  (a, min (5 * 2 ^ (a - 1)) 60)

/-- The delays produced by `n` consecutive failures starting from backoff
counter `attempts` with no intervening successful connect. -/
def backoffRun (attempts : Nat) : Nat → List Nat
  | 0 => []
  | n + 1 =>
      let r := nextBackoffDelay attempts
      r.2 :: backoffRun r.1 n

/-- Handler `_on_connect` (tiktok.py line 111) resets `_backoff_attempts` to 0. -/
def onConnect (_attempts : Nat) : Nat := 0

/-- User attributes probed by `_author_id` / `_display_name`
(tiktok.py lines 533-560); each is absent or a string. -/
structure UserInfo where
  userId : Option String
  user_id : Option String
  id : Option String
  uid : Option String
  uniqueId : Option String
  unique_id : Option String
  nickname : Option String
  username : Option String
deriving DecidableEq, Repr

/-- First truthy candidate (Python skips `None` and `""`). -/
def firstTruthy : List (Option String) → Option String
  | [] => none
  | some s :: rest => if s ≠ "" then some s else firstTruthy rest
  | none :: rest => firstTruthy rest

/-- Function `_display_name` (tiktok.py lines 533-544). -/
def displayNameOf (user : Option UserInfo) : String :=
  let c := firstTruthy [user.bind (·.nickname), user.bind (·.uniqueId),
    user.bind (·.unique_id), user.bind (·.username)]
  c.getD "Unknown"

/-- Function `_author_id` (tiktok.py lines 547-560). -/
def authorIdOf (user : Option UserInfo) : String :=
  let c := firstTruthy [user.bind (·.userId), user.bind (·.user_id),
    user.bind (·.id), user.bind (·.uid), user.bind (·.uniqueId),
    user.bind (·.unique_id)]
  match c with
  | some s => s
  | none => displayNameOf user

/-- Event category with the category-specific fields `_event_key` reads:
comments carry a `comment` text, gifts carry a `gift` object with
optional id and name, likes carry neither attribute. -/
inductive EvKind where
  | comment (text : String)
  | gift (giftId : Option String) (giftName : Option String)
  | like
deriving DecidableEq, Repr

/-- An inbound TikTok event as `_event_key` (tiktok.py lines 478-530)
sees it.  `explicitId` is the first truthy value among the fifteen
explicit id attributes (`msg_id` … `logId`) scanned on the event and its
`base_message`; `createTime` is the `create_time`/`timestamp` attribute,
which that same scan also covers. -/
structure TkEvent where
  explicitId : Option String
  createTime : Option String
  user : Option UserInfo
  kind : EvKind
deriving DecidableEq, Repr

/-- Render an optional value inside an f-string as Python does
(`None` prints as `"None"`). -/
def fmtOpt (o : Option String) : String := o.getD "None"

/-- Function `_event_key` (tiktok.py lines 478-530): explicit ids first (the scan
list includes `create_time`/`timestamp`), then per-category synthesis for
comment and gift events; like events have no fallback and yield `none`. -/
def eventKey (e : TkEvent) : Option String :=
  match e.explicitId with
  | some v => some v
  | none =>
    match e.createTime with
    | some v => some v
    | none =>
      let author := authorIdOf e.user
      match e.kind with
      | .comment text =>
          if author ≠ "" ∨ text ≠ "" then
            some ("comment:" ++ author ++ ":" ++ text ++ ":" ++
              fmtOpt e.createTime)
          else none
      | .gift giftId giftName =>
          let content := match giftId with
            | some i => if i ≠ "" then some i else giftName
            | none => giftName
          if author ≠ "" ∨ (giftId.isSome ∧ giftId ≠ some "") ∨
              (giftName.isSome ∧ giftName ≠ some "") then
            some ("gift:" ++ author ++ ":" ++ fmtOpt content ++ ":" ++
              fmtOpt e.createTime)
          else none
      | .like => none

/-- The dedup gate at the top of each handler (tiktok.py lines 134-137,
202-205, 282-285): `if key and not seen.add(key): return`.  Returns
whether the event is processed, and the updated cache. -/
def dedupGate (key : Option String) (cache : SeenCache) :
    Bool × SeenCache :=
  match key with
  | none => (true, cache)
  | some k =>
      let r := cache.add k
      (r.1, r.2)

/-- Python's `queue.pop(0)` as used by the consumer in `main.py`
(lines 383-449): plain FIFO head removal, no priority scan. -/
def popNext {α : Type} : List α → Option (α × List α)
  | [] => none
  | h :: t => some (h, t)

/-- Repeatedly `popNext` until the queue is empty (the consumer draining
a queue). -/
def drainAll {α : Type} : List α → List α
  | [] => []
  | _ :: t => drainAll t

end FallingPickaxe

namespace FallingPickaxe

/-! ### Frame lemmas for the comment-classification steps -/

lemma commentTntStep_tnt (q : Queues) (a dn m : String) (av : Option String)
    (tl : List Char) : (commentTntStep q a dn m av tl).tnt =
      q.tnt ++ [⟨a, dn, m, av,
        if pyContains "tnt" tl then some "tnt" else none, none, none⟩] := rfl

lemma commentTntStep_fastSlow (q : Queues) (a dn m : String)
    (av : Option String) (tl : List Char) :
    (commentTntStep q a dn m av tl).fastSlow = q.fastSlow := rfl

lemma commentMegaStep_tnt (q : Queues) (a dn m : String) (av : Option String)
    (tl : List Char) : (commentMegaStep q a dn m av tl).tnt = q.tnt := by
  unfold commentMegaStep; split <;> rfl

lemma commentMegaStep_fastSlow (q : Queues) (a dn m : String)
    (av : Option String) (tl : List Char) :
    (commentMegaStep q a dn m av tl).fastSlow = q.fastSlow := by
  unfold commentMegaStep; split <;> rfl

lemma commentFastSlowStep_tnt (q : Queues) (a dn : String) (tl : List Char) :
    (commentFastSlowStep q a dn tl).tnt = q.tnt := by
  unfold commentFastSlowStep; split <;> (try split) <;> rfl

lemma commentFastSlowStep_fastSlow (q : Queues) (a dn : String)
    (tl : List Char) : (commentFastSlowStep q a dn tl).fastSlow =
      (if pyContains "fast" tl &&
          !(q.fastSlow.any (fun e => e.author_id == a)) then
        q.fastSlow ++ [⟨a, dn, "Fast"⟩]
      else if pyContains "slow" tl &&
          !(q.fastSlow.any (fun e => e.author_id == a)) then
        q.fastSlow ++ [⟨a, dn, "Slow"⟩]
      else q.fastSlow) := by
  unfold commentFastSlowStep; split <;> (try split) <;> rfl

lemma commentBigStep_tnt (q : Queues) (a dn : String) (tl : List Char) :
    (commentBigStep q a dn tl).tnt = q.tnt := by
  unfold commentBigStep; split <;> rfl

lemma commentBigStep_fastSlow (q : Queues) (a dn : String) (tl : List Char) :
    (commentBigStep q a dn tl).fastSlow = q.fastSlow := by
  unfold commentBigStep; split <;> rfl

lemma commentPickStep_tnt (q : Queues) (a dn : String) (tl : List Char) :
    (commentPickStep q a dn tl).tnt = q.tnt := by
  unfold commentPickStep; split <;> rfl

lemma commentPickStep_fastSlow (q : Queues) (a dn : String) (tl : List Char) :
    (commentPickStep q a dn tl).fastSlow = q.fastSlow := by
  unfold commentPickStep; split <;> rfl

/-- The TNT-queue effect of a classified comment: exactly one payload is
appended, highlighted iff the text contains "tnt". -/
lemma handleComment_tnt (q : Queues) (a dn m : String) (av : Option String) :
    (handleComment q a dn m av).tnt = q.tnt ++ [⟨a, dn, m, av,
      if pyContains "tnt" (lowerText m) then some "tnt" else none,
      none, none⟩] := by
  simp only [handleComment, commentPickStep_tnt, commentBigStep_tnt,
    commentFastSlowStep_tnt, commentMegaStep_tnt, commentTntStep_tnt]

/-- The Fast/Slow-queue effect of a classified comment. -/
lemma handleComment_fastSlow (q : Queues) (a dn m : String)
    (av : Option String) : (handleComment q a dn m av).fastSlow =
      (if pyContains "fast" (lowerText m) &&
          !(q.fastSlow.any (fun e => e.author_id == a)) then
        q.fastSlow ++ [⟨a, dn, "Fast"⟩]
      else if pyContains "slow" (lowerText m) &&
          !(q.fastSlow.any (fun e => e.author_id == a)) then
        q.fastSlow ++ [⟨a, dn, "Slow"⟩]
      else q.fastSlow) := by
  simp only [handleComment, commentPickStep_fastSlow, commentBigStep_fastSlow,
    commentFastSlowStep_fastSlow, commentMegaStep_fastSlow,
    commentTntStep_fastSlow]

lemma drainAll_eq_nil {α : Type} (l : List α) : drainAll l = [] := by
  induction l with
  | nil => rfl
  | cons h t ih => simpa [drainAll] using ih

/-- The empty queue bundle (initial state of the five chat queues). -/
def exQ0 : Queues := ⟨[], [], [], [], []⟩

end FallingPickaxe

namespace FallingPickaxe

/-- A normal-priority comment payload, entry "A" of the C1 scenario. -/
def entryNormalA : TntEntry :=
  ⟨"1", "Ann", "hello", none, none, none, none⟩

/-- A gift-priority payload, entry "B" of the C1 scenario. -/
def entryGiftB : TntEntry :=
  ⟨"2", "Bob", "Gift: Rose", none, some "tnt", some "gift", some 10⟩

/-- A normal-priority comment payload, entry "C" of the C1 scenario. -/
def entryNormalC : TntEntry :=
  ⟨"3", "Cyn", "hi there", none, none, none, none⟩

/-- C1 counterexample: on the queue `[A(normal), B(gift), C(normal)]` the
consumer's `popNext` (`queue.pop(0)`, main.py lines 383-406) returns the
FIFO head `A`, which is not the gift-priority entry `B`, so gift-priority
entries are not served first. -/
theorem C1_counterexample :
    (popNext [entryNormalA, entryGiftB, entryNormalC]).map (fun r => r.1) =
      some entryNormalA ∧ entryNormalA ≠ entryGiftB := by
  constructor
  · rfl
  · decide

/-- C1 (amended): `popNext` is a plain FIFO `pop(0)`: it returns the head
entry regardless of any `priority` field and leaves the tail in original
order; on `[A(normal), B(gift), C(normal)]` it returns `A`, leaving
`[B, C]`.  The `priority="gift"` field written by the gift handler is
never consulted by the consumer. -/
theorem C1_fifo_pop :
    popNext ([] : List TntEntry) = none ∧
    (∀ (h : TntEntry) (t : List TntEntry), popNext (h :: t) = some (h, t)) ∧
    popNext [entryNormalA, entryGiftB, entryNormalC] =
      some (entryNormalA, [entryGiftB, entryNormalC]) :=
  ⟨rfl, fun _ _ => rfl, rfl⟩

/-- C2: every classified comment appends exactly one payload to the TNT
queue, and that payload carries `highlight="tnt"` iff the lowered text
contains `"tnt"`; the comment `"please drop tnt and go fast"` from
authorId 7 on empty queues yields exactly one tnt-highlighted TNT payload
and one Fast entry, both tagged to author "7". -/
theorem C2_comment_tnt :
    (∀ (q : Queues) (a dn m : String) (av : Option String),
      ∃ e : TntEntry, (handleComment q a dn m av).tnt = q.tnt ++ [e] ∧
        e.author_id = a ∧
        (e.highlight = some "tnt" ↔ pyContains "tnt" (lowerText m) = true)) ∧
    handleComment exQ0 "7" "Alice" "please drop tnt and go fast" none =
      ⟨[⟨"7", "Alice", "please drop tnt and go fast", none, some "tnt",
        none, none⟩], [], [⟨"7", "Alice", "Fast"⟩], [], []⟩ := by
  constructor
  · intro q a dn m av
    refine ⟨_, handleComment_tnt q a dn m av, rfl, ?_⟩
    by_cases h : pyContains "tnt" (lowerText m) = true <;> simp [h]
  · decide

/-- C9: a comment whose lowered text contains "fast" enqueues one Fast
entry only when the author has no pending Fast/Slow entry; a second
identical comment before the queue is drained adds nothing; after the
queue is drained (repeated `popNext` until empty) a third one enqueues a
new entry; a comment without "fast" but with "slow" enqueues Slow behind
the same gate. -/
theorem C9_per_author_gating (q : Queues) (a dn m : String)
    (av : Option String)
    (hfast : pyContains "fast" (lowerText m) = true)
    (hgate : q.fastSlow.any (fun e => e.author_id == a) = false) :
    (handleComment q a dn m av).fastSlow = q.fastSlow ++ [⟨a, dn, "Fast"⟩] ∧
    (handleComment (handleComment q a dn m av) a dn m av).fastSlow =
      (handleComment q a dn m av).fastSlow ∧
    (∀ q2 : Queues,
      q2.fastSlow = drainAll (handleComment q a dn m av).fastSlow →
      (handleComment q2 a dn m av).fastSlow = [⟨a, dn, "Fast"⟩]) ∧
    (∀ m2 : String, pyContains "fast" (lowerText m2) = false →
      pyContains "slow" (lowerText m2) = true →
      (handleComment q a dn m2 av).fastSlow =
        q.fastSlow ++ [⟨a, dn, "Slow"⟩]) := by
  have h1 : (handleComment q a dn m av).fastSlow =
      q.fastSlow ++ [⟨a, dn, "Fast"⟩] := by
    rw [handleComment_fastSlow, if_pos (by simp [hfast, hgate])]
  refine ⟨h1, ?_, ?_, ?_⟩
  · have hgate2 : ((handleComment q a dn m av).fastSlow.any
        (fun e => e.author_id == a)) = true := by
      rw [h1]; simp
    rw [handleComment_fastSlow, hgate2]
    simp
  · intro q2 hq2
    have hdrained : q2.fastSlow = [] := by rw [hq2, drainAll_eq_nil]
    rw [handleComment_fastSlow, hdrained]
    simp [hfast]
  · intro m2 hnofast hslow
    rw [handleComment_fastSlow, if_neg (by simp [hnofast]),
      if_pos (by simp [hslow, hgate])]

/-- C9 witness: the scenario at author "7", message "go fast", empty
queues. -/
theorem C9_witness :
    (handleComment exQ0 "7" "Alice" "go fast" none).fastSlow =
      [⟨"7", "Alice", "Fast"⟩] ∧
    (handleComment (handleComment exQ0 "7" "Alice" "go fast" none)
        "7" "Alice" "go fast" none).fastSlow =
      (handleComment exQ0 "7" "Alice" "go fast" none).fastSlow := by
  have h := C9_per_author_gating exQ0 "7" "Alice" "go fast" none
    (by decide) (by decide)
  exact ⟨h.1, h.2.1⟩

end FallingPickaxe

namespace FallingPickaxe

/-- The delays of consecutive failures: the `i`-th (0-based) delay after a
reset is `min (5 * 2^i) 60`. -/
lemma backoffRun_eq (a : Nat) : ∀ n : Nat, backoffRun a n =
    (List.range n).map (fun i => min (5 * 2 ^ (a + i)) 60) := by
  intro n
  induction n generalizing a with
  | zero => rfl
  | succ n ih =>
      rw [backoffRun, List.range_succ_eq_map]
      simp only [List.map_cons, List.map_map]
      have h0 : (nextBackoffDelay a).2 = 5 * 2 ^ (a + 0) ⊓ 60 := by
        simp [nextBackoffDelay]
      have h1 : (nextBackoffDelay a).1 = a + 1 := rfl
      rw [h0, h1, ih (a + 1)]
      congr 1
      apply List.map_congr_left
      intro i _
      simp only [Function.comp_apply]
      have h2 : a + 1 + i = a + Nat.succ i := by omega
      rw [h2]

/-- C5: for the rate/sign-error category, the `i`-th consecutive failure
after a reset is delayed `min (5 * 2^i) 60` seconds, giving
`5, 10, 20, 40, 60, 60` for the first six; a successful connect resets
the attempt counter so the next delay is `5` again. -/
theorem C5_backoff_delays :
    (∀ n : Nat, backoffRun 0 n =
      (List.range n).map (fun i => min (5 * 2 ^ i) 60)) ∧
    backoffRun 0 6 = [5, 10, 20, 40, 60, 60] ∧
    (∀ a : Nat, (nextBackoffDelay (onConnect a)).2 = 5) := by
  refine ⟨?_, by decide, fun a => rfl⟩
  intro n
  rw [backoffRun_eq 0 n]
  simp

/-- C8: after any like event the author's accumulator is `< 5`; one
MegaTNT payload is appended per complete bundle of 5; an author
accumulating like counts `2, 2, 2` (total 6) yields exactly one MegaTNT
payload with a residual counter of `1`. -/
theorem C8_like_bundling :
    (∀ (counter : Nat) (lc lc2 : LikeRaw),
      (likeStep counter lc lc2).1 < 5) ∧
    (∀ (counter : Nat) (megaQ : List TntEntry) (a dn : String)
        (av : Option String) (lc lc2 : LikeRaw),
      (handleLike counter megaQ a dn av lc lc2).2.length =
        megaQ.length + (counter + (likeAdded lc lc2).toNat) / 5) ∧
    ((handleLike
        (handleLike
          (handleLike 0 [] "7" "Alice" none (.num 2) .missing).1
          (handleLike 0 [] "7" "Alice" none (.num 2) .missing).2
          "7" "Alice" none (.num 2) .missing).1
        (handleLike
          (handleLike 0 [] "7" "Alice" none (.num 2) .missing).1
          (handleLike 0 [] "7" "Alice" none (.num 2) .missing).2
          "7" "Alice" none (.num 2) .missing).2
        "7" "Alice" none (.num 2) .missing) =
      (1, [likePayload "7" "Alice" none])) := by
  refine ⟨?_, ?_, by decide⟩
  · intro counter lc lc2
    exact Nat.mod_lt _ (by decide)
  · intro counter megaQ a dn av lc lc2
    simp [handleLike, likeStep]

/-- C10: the amount added to the like accumulator is always at least 1;
a missing, non-numeric, zero or negative like-count field contributes
exactly 1. -/
theorem C10_like_amount_floor :
    (∀ lc lc2 : LikeRaw, 1 ≤ likeAdded lc lc2) ∧
    likeAdded .missing .missing = 1 ∧
    likeAdded .nonNumeric .missing = 1 ∧
    likeAdded (.num 0) .missing = 1 ∧
    (∀ n : Int, n < 0 → likeAdded (.num n) .missing = 1) := by
  refine ⟨?_, by decide, by decide, by decide, ?_⟩
  · intro lc lc2
    exact le_max_right _ _
  · intro n hn
    have hne : n ≠ 0 := by omega
    have h1 : likeCountOf (.num n) .missing = n := by
      simp [likeCountOf, LikeRaw.truthy, hne]
    simp only [likeAdded, h1]
    exact max_eq_right (by omega)

/-- C10 witness: a like count of `-3` contributes exactly 1. -/
theorem C10_witness : likeAdded (.num (-3)) .missing = 1 :=
  C10_like_amount_floor.2.2.2.2 (-3) (by decide)

end FallingPickaxe

namespace FallingPickaxe

/-- TNT-queue effect of `_handle_gift`. -/
lemma handleGift_tnt (q : Queues) (a dn : String) (av gn : Option String)
    (cv : Option Int) (qty : Nat) :
    (handleGift q a dn av gn cv qty).tnt =
      (if (giftCounts cv qty).1 ≠ 0 then
        q.tnt ++ [⟨a, dn, "Gift: " ++ gn.getD "TikTok gift", av,
          some "tnt", some "gift", some (giftCounts cv qty).1⟩]
      else q.tnt) := by
  simp only [handleGift]
  repeat' split <;> try rfl

/-- MegaTNT-queue effect of `_handle_gift`. -/
lemma handleGift_mega (q : Queues) (a dn : String) (av gn : Option String)
    (cv : Option Int) (qty : Nat) :
    (handleGift q a dn av gn cv qty).megaTnt =
      (if (giftCounts cv qty).2 ≠ 0 then
        q.megaTnt ++ [⟨a, dn, "Gift: " ++ gn.getD "TikTok gift", av,
          some "megatnt", some "gift", some (giftCounts cv qty).2⟩]
      else q.megaTnt) := by
  simp only [handleGift]
  repeat' split <;> try rfl

/-- C4: gift classification by coin value: `>50` coins → 10 MegaTNT;
`1 < coins ≤ 50` → 5 TNT + 5 MegaTNT; exactly 1 coin (in fact any
`coins ≤ 1`) → 10 TNT; unknown coins with quantity `>1` → 5 TNT +
5 MegaTNT; otherwise → 10 TNT; and every payload a gift appends to either
queue carries `priority="gift"`. -/
theorem C4_gift_classification :
    (∀ (cv : Int) (qty : Nat), 50 < cv → giftCounts (some cv) qty = (0, 10)) ∧
    (∀ (cv : Int) (qty : Nat), 1 < cv → cv ≤ 50 →
      giftCounts (some cv) qty = (5, 5)) ∧
    (∀ qty : Nat, giftCounts (some 1) qty = (10, 0)) ∧
    (∀ (cv : Int) (qty : Nat), cv ≤ 1 → giftCounts (some cv) qty = (10, 0)) ∧
    (∀ qty : Nat, 1 < qty → giftCounts none qty = (5, 5)) ∧
    (∀ qty : Nat, qty ≤ 1 → giftCounts none qty = (10, 0)) ∧
    (∀ (q : Queues) (a dn : String) (av gn : Option String)
        (cv : Option Int) (qty : Nat),
      (∀ e ∈ (handleGift q a dn av gn cv qty).tnt,
        e ∈ q.tnt ∨ e.priority = some "gift") ∧
      (∀ e ∈ (handleGift q a dn av gn cv qty).megaTnt,
        e ∈ q.megaTnt ∨ e.priority = some "gift")) := by
  refine ⟨?_, ?_, fun qty => rfl, ?_, ?_, ?_, ?_⟩
  · intro cv qty h
    simp [giftCounts, h]
  · intro cv qty h1 h2
    simp [giftCounts, h1, not_lt.mpr h2]
  · intro cv qty h
    have h1 : ¬(50 : Int) < cv := by omega
    have h2 : ¬(1 : Int) < cv := by omega
    simp [giftCounts, h1, h2]
  · intro qty h
    simp [giftCounts, h]
  · intro qty h
    have h1 : ¬1 < qty := by omega
    simp [giftCounts, h1]
  · intro q a dn av gn cv qty
    constructor
    · intro e he
      rw [handleGift_tnt] at he
      split at he
      · rcases List.mem_append.mp he with h | h
        · exact Or.inl h
        · right
          simp only [List.mem_singleton] at h
          subst h
          rfl
      · exact Or.inl he
    · intro e he
      rw [handleGift_mega] at he
      split at he
      · rcases List.mem_append.mp he with h | h
        · exact Or.inl h
        · right
          simp only [List.mem_singleton] at h
          subst h
          rfl
      · exact Or.inl he

/-- C4 witness: one concrete gift per branch, and the gift-priority fact
for the 1-coin gift payload. -/
theorem C4_witness :
    giftCounts (some 60) 1 = (0, 10) ∧
    giftCounts (some 30) 1 = (5, 5) ∧
    giftCounts (some 1) 1 = (10, 0) ∧
    giftCounts (some 0) 1 = (10, 0) ∧
    giftCounts none 3 = (5, 5) ∧
    giftCounts none 1 = (10, 0) ∧
    (entryGiftB ∈ exQ0.tnt ∨ entryGiftB.priority = some "gift") :=
  ⟨C4_gift_classification.1 60 1 (by decide),
   C4_gift_classification.2.1 30 1 (by decide) (by decide),
   C4_gift_classification.2.2.1 1,
   C4_gift_classification.2.2.2.1 0 1 (by decide),
   C4_gift_classification.2.2.2.2.1 3 (by decide),
   C4_gift_classification.2.2.2.2.2.1 1 (by decide),
   (C4_gift_classification.2.2.2.2.2.2 exQ0 "2" "Bob" none (some "Rose")
     (some 1) 1).1 entryGiftB (by decide)⟩

end FallingPickaxe

namespace FallingPickaxe

/-- A like event carrying an author id but no explicit platform
identifier. -/
def likeEvt : TkEvent :=
  ⟨none, none, some ⟨some "42", none, none, none, none, none, none, none⟩,
   .like⟩

/-- C3 counterexample: `_event_key` has no synthesis fallback for like
events; this like event has no explicit identifier and a non-empty
author id `"42"`, yet the resolver returns absent — contradicting both
"returns a synthesized key" and "returns absent only when author and
content are both empty". -/
theorem C3_counterexample :
    eventKey likeEvt = none ∧ authorIdOf likeEvt.user = "42" := by decide

/-- C3 (amended): comment and gift events with no explicit identifier
get a synthesized `{eventType}:{authorId}:{content-or-giftId}:{timestamp}`
key, absent only when author and content are all empty; like events with
no explicit identifier always resolve to absent; and any event whose key
is absent passes the dedup gate unconditionally, with the cache
untouched — it is never dropped. -/
theorem C3_event_key :
    (∀ (u : Option UserInfo) (text : String),
      (authorIdOf u = "" ∧ text = "") ∨
      eventKey ⟨none, none, u, .comment text⟩ =
        some ("comment:" ++ authorIdOf u ++ ":" ++ text ++ ":" ++ "None")) ∧
    (∀ (u : Option UserInfo) (giftId giftName : Option String),
      (authorIdOf u = "" ∧ ¬(giftId.isSome ∧ giftId ≠ some "") ∧
        ¬(giftName.isSome ∧ giftName ≠ some "")) ∨
      (∃ content : Option String,
        eventKey ⟨none, none, u, .gift giftId giftName⟩ =
          some ("gift:" ++ authorIdOf u ++ ":" ++ fmtOpt content ++ ":" ++
            "None"))) ∧
    (∀ u : Option UserInfo, eventKey ⟨none, none, u, .like⟩ = none) ∧
    (∀ c : SeenCache, dedupGate none c = (true, c)) := by
  refine ⟨?_, ?_, fun u => rfl, fun c => rfl⟩
  · intro u text
    by_cases h : authorIdOf u ≠ "" ∨ text ≠ ""
    · right
      have hk : eventKey ⟨none, none, u, .comment text⟩ =
          (if authorIdOf u ≠ "" ∨ text ≠ "" then
            some ("comment:" ++ authorIdOf u ++ ":" ++ text ++ ":" ++
              "None")
          else none) := rfl
      rw [hk, if_pos h]
    · left
      push_neg at h
      simpa using h
  · intro u giftId giftName
    by_cases h : authorIdOf u ≠ "" ∨ (giftId.isSome ∧ giftId ≠ some "") ∨
        (giftName.isSome ∧ giftName ≠ some "")
    · right
      cases giftId with
      | none =>
          refine ⟨giftName, ?_⟩
          have hk : eventKey ⟨none, none, u, .gift none giftName⟩ =
              (if authorIdOf u ≠ "" ∨
                  ((none : Option String).isSome ∧
                    (none : Option String) ≠ some "") ∨
                  (giftName.isSome ∧ giftName ≠ some "") then
                some ("gift:" ++ authorIdOf u ++ ":" ++ fmtOpt giftName ++
                  ":" ++ "None")
              else none) := rfl
          rw [hk, if_pos h]
      | some i =>
          refine ⟨if i ≠ "" then some i else giftName, ?_⟩
          have hk : eventKey ⟨none, none, u, .gift (some i) giftName⟩ =
              (if authorIdOf u ≠ "" ∨
                  ((some i : Option String).isSome ∧
                    (some i : Option String) ≠ some "") ∨
                  (giftName.isSome ∧ giftName ≠ some "") then
                some ("gift:" ++ authorIdOf u ++ ":" ++
                  fmtOpt (if i ≠ "" then some i else giftName) ++
                  ":" ++ "None")
              else none) := rfl
          rw [hk, if_pos h]
    · left
      push_neg at h
      rcases h with ⟨h1, h2, h3⟩
      refine ⟨by simpa using h1, ?_, ?_⟩
      · intro hc
        exact hc.2 (h2 hc.1)
      · intro hc
        exact hc.2 (h3 hc.1)

end FallingPickaxe

namespace FallingPickaxe

/-- Adding a resident key is a no-op returning `false`. -/
lemma SeenCache.add_mem (d : SeenCache) (k : String) (hd : k ∈ d.items) :
    d.add k = (false, d) := by
  simp [SeenCache.add, hd]

/-- With capacity at least 1, the key just added is resident. -/
lemma SeenCache.mem_add_snd (d : SeenCache) (k : String)
    (h : 1 ≤ d.maxlen) : k ∈ (d.add k).2.items := by
  by_cases hd : k ∈ d.items
  · rw [SeenCache.add_mem d k hd]
    exact hd
  · simp only [SeenCache.add, if_neg hd]
    split
    · rename_i hlen
      cases hi : d.items with
      | nil =>
          exfalso
          rw [hi] at hlen
          simp at hlen
          omega
      | cons x xs => simp
    · simp

/-- Characterization of a run of `add` calls on distinct fresh keys: the
resident list is the suffix of length at most `N` of `init ++ ks`. -/
lemma SeenCache.addAll_items_aux (N : Nat) :
    ∀ (ks init : List String), init.length ≤ N → (init ++ ks).Nodup →
      (SeenCache.addAll ⟨N, init⟩ ks).items =
        (init ++ ks).drop ((init ++ ks).length - N) ∧
      (SeenCache.addAll ⟨N, init⟩ ks).maxlen = N := by
  intro ks
  induction ks with
  | nil =>
      intro init hlen hnd
      constructor
      · simp [SeenCache.addAll, Nat.sub_eq_zero_of_le hlen]
      · rfl
  | cons k ks ih =>
      intro init hlen hnd
      have hknotin : k ∉ init := by
        intro hk
        rcases List.nodup_append.mp hnd with ⟨_, _, hdisj⟩
        exact hdisj hk (by simp)
      have hstep : SeenCache.addAll ⟨N, init⟩ (k :: ks) =
          SeenCache.addAll ((SeenCache.add ⟨N, init⟩ k).2) ks := rfl
      rcases Nat.lt_or_ge init.length N with hlt | hge
      · have hadd : (SeenCache.add ⟨N, init⟩ k).2 = ⟨N, init ++ [k]⟩ := by
          simp only [SeenCache.add, if_neg hknotin]
          rw [if_neg (by simp; omega)]
        rw [hstep, hadd]
        have hres := ih (init ++ [k]) (by simp; omega)
          (by rwa [List.append_assoc, List.singleton_append])
        rwa [List.append_assoc, List.singleton_append] at hres
      · have heq : init.length = N := le_antisymm hlen hge
        have hadd : (SeenCache.add ⟨N, init⟩ k).2 =
            ⟨N, (init ++ [k]).tail⟩ := by
          simp only [SeenCache.add, if_neg hknotin]
          rw [if_pos (by simp; omega)]
        rw [hstep, hadd]
        cases init with
        | nil =>
            have h0 : N = 0 := by
              simp at heq
              omega
            subst h0
            have hres := ih [] (by simp) (by simpa using hnd.of_cons)
            constructor
            · have h1 := hres.1
              simp only [List.nil_append] at h1 ⊢
              rw [show (([k] : List String).tail) = ([] : List String)
                from rfl, h1]
              simp [List.drop_length]
            · exact hres.2
        | cons x xs =>
            have ht : (((x :: xs : List String)) ++ [k]).tail = xs ++ [k] :=
              rfl
            rw [ht]
            have hnd' : ((xs ++ [k]) ++ ks).Nodup := by
              have h2 : (xs ++ k :: ks).Nodup := by
                have h3 : (x :: (xs ++ k :: ks)).Nodup := by simpa using hnd
                exact h3.of_cons
              rwa [List.append_assoc, List.singleton_append]
            have hlen' : (xs ++ [k]).length ≤ N := by
              simp at heq ⊢
              omega
            have hres := ih (xs ++ [k]) hlen' hnd'
            rw [List.append_assoc, List.singleton_append] at hres
            constructor
            · rw [hres.1, List.cons_append]
              have hamt : (x :: (xs ++ k :: ks) : List String).length - N =
                  ((xs ++ k :: ks : List String).length - N) + 1 := by
                simp at heq ⊢
                omega
              rw [hamt, List.drop_succ_cons]
            · exact hres.2

/-- C6: starting from an empty cache of capacity `N`, inserting `N + k`
distinct keys leaves exactly the last `N` of them resident, in insertion
order (the `k`-th through `(N+k)`-th most recently inserted); and at
every intermediate point at most `N` keys are resident and none twice. -/
theorem C6_bounded_cache (N k : Nat) (keys : List String)
    (hnd : keys.Nodup) (hlen : keys.length = N + k) :
    (SeenCache.addAll ⟨N, []⟩ keys).items = keys.drop k ∧
    (SeenCache.addAll ⟨N, []⟩ keys).items.length = N ∧
    ∀ i : Nat, (SeenCache.addAll ⟨N, []⟩ (keys.take i)).items.length ≤ N ∧
      (SeenCache.addAll ⟨N, []⟩ (keys.take i)).items.Nodup := by
  have hmain := SeenCache.addAll_items_aux N keys [] (by simp)
    (by simpa using hnd)
  simp only [List.nil_append] at hmain
  have h1 : (SeenCache.addAll ⟨N, []⟩ keys).items = keys.drop k := by
    rw [hmain.1, hlen]
    congr 1
    omega
  refine ⟨h1, ?_, ?_⟩
  · rw [h1, List.length_drop]
    omega
  · intro i
    have hnd' : (keys.take i).Nodup := hnd.sublist (List.take_sublist i keys)
    have hx := SeenCache.addAll_items_aux N (keys.take i) [] (by simp)
      (by simpa using hnd')
    simp only [List.nil_append] at hx
    constructor
    · rw [hx.1, List.length_drop]
      omega
    · rw [hx.1]
      exact hnd'.sublist (List.drop_sublist _ _)

/-- C6 witness: capacity 2, three distinct keys; "a" is evicted. -/
theorem C6_witness :
    (SeenCache.addAll ⟨2, []⟩ ["a", "b", "c"]).items = ["b", "c"] ∧
    (SeenCache.addAll ⟨2, []⟩ ["a", "b", "c"]).items.length = 2 := by
  have h := C6_bounded_cache 2 1 ["a", "b", "c"] (by decide) (by decide)
  exact ⟨h.1, h.2.1⟩

/-- C7 counterexample: on a zero-capacity cache the freshly added key is
immediately evicted, so the second of two successive `add("a")` calls
returns `true` again, not `false` as the claim states for every cache
state. -/
theorem C7_counterexample :
    ¬((((⟨0, []⟩ : SeenCache).add "a").2.add "a").1 = false) := by decide

/-- C7 (amended): on any cache of capacity at least 1 (every cache the
bridge builds has capacity 2000), the first `add(k)` returns `true` iff
`k` was not already resident, and an immediately repeated `add(k)`
returns `false` and leaves the cache exactly as it was — so two
successive calls on a fresh key yield `(true, false)`. -/
theorem C7_dedup_idempotence (c : SeenCache) (k : String)
    (h : 1 ≤ c.maxlen) :
    ((c.add k).1 = true ↔ k ∉ c.items) ∧
    ((c.add k).2.add k).1 = false ∧
    ((c.add k).2.add k).2 = (c.add k).2 := by
  have hmem : k ∈ (c.add k).2.items := SeenCache.mem_add_snd c k h
  have hsecond := SeenCache.add_mem (c.add k).2 k hmem
  refine ⟨?_, by rw [hsecond], by rw [hsecond]⟩
  by_cases hd : k ∈ c.items
  · rw [SeenCache.add_mem c k hd]
    simp [hd]
  · simp only [SeenCache.add, if_neg hd]
    constructor
    · intro _
      exact hd
    · intro _
      split <;> rfl

/-- C7 witness: a fresh key on an empty capacity-2 cache. -/
theorem C7_witness :
    (((⟨2, []⟩ : SeenCache).add "a").1 = true ↔
      "a" ∉ (⟨2, []⟩ : SeenCache).items) ∧
    ((((⟨2, []⟩ : SeenCache).add "a").2).add "a").1 = false ∧
    ((((⟨2, []⟩ : SeenCache).add "a").2).add "a").2 =
      ((⟨2, []⟩ : SeenCache).add "a").2 :=
  C7_dedup_idempotence ⟨2, []⟩ "a" (by decide)

end FallingPickaxe
